import Mathlib

/-!
# Verification of the relevance/eligibility/scoring engine

Shallow embedding of the core pure transformations of the ESG job-board
repository (`sponsor.js`, the scorer module, the fetcher pipeline and the
storage layer), together with proofs and refutations of the specified
properties.

Strings are modelled as Lean `String`s (lists of unicode scalar values);
JavaScript's ASCII case mapping, `\s` white-space class and `\b` word
boundaries are modelled exactly on the ASCII range, which covers every
constant the code matches against.
-/

namespace ESGJobs

/-! ## Character helpers (JavaScript string primitives) -/

/-- ASCII case mapping of `String.prototype.toLowerCase`. -/
def jsToLower (c : Char) : Char :=
  if 65 ≤ c.toNat ∧ c.toNat ≤ 90 then Char.ofNat (c.toNat + 32) else c

/-- The regex class `\s` (ASCII part: space, tab, LF, CR, VT, FF). -/
def isJsWs (c : Char) : Bool :=
  c.toNat = 32 || c.toNat = 9 || c.toNat = 10 || c.toNat = 13 ||
  c.toNat = 11 || c.toNat = 12

/-- The regex class `\d`. -/
def isDigitCh (c : Char) : Bool := 48 ≤ c.toNat && c.toNat ≤ 57

/-- The regex word-character class `\w` = `[A-Za-z0-9_]`, used by `\b`. -/
def isWordCh (c : Char) : Bool :=
  (97 ≤ c.toNat && c.toNat ≤ 122) || (65 ≤ c.toNat && c.toNat ≤ 90) ||
  isDigitCh c || c.toNat = 95

/-- Lowercase a whole string (`.toLowerCase()`). -/
def jsToLowerStr (s : String) : String := String.mk (s.data.map jsToLower)

/-! ## `normalise` (src/sponsor.js, lines 39-47)

```js
function normalise(name) {
  return name
    .toLowerCase()
    .replace(/[""'']/g, "")            // the class is ASCII " and '
    .replace(/\b(ltd|limited|llp|plc|inc|corp|corporation|gmbh|ag|group|holdings|uk)\b/gi, "")
    .replace(/[^a-z0-9\s&]/g, "")
    .replace(/\s+/g, " ")
    .trim();
}
```

A `\b(w1|...|wn)\b` match with purely alphabetic alternatives is exactly a
maximal `\w`-run equal to one of the alternatives, so the second `replace`
is modelled by deleting those maximal word runs. -/

/-- The quote class of the first `replace`: ASCII `"` (34) and `'` (39). -/
def isQuoteCh (c : Char) : Bool := c.toNat = 34 || c.toNat = 39

def SUFFIX_WORDS : List String :=
  ["ltd", "limited", "llp", "plc", "inc", "corp", "corporation",
   "gmbh", "ag", "group", "holdings", "uk"]

def isSuffixWord (w : List Char) : Bool := SUFFIX_WORDS.contains (String.mk w)

/-- Emit a finished maximal word run unless it is a legal-entity suffix word.
The accumulator holds the run in reverse. -/
def flushWord (acc : List Char) : List Char :=
  if isSuffixWord acc.reverse then [] else acc.reverse

/-- Delete every maximal `\w`-run equal to a suffix word
(`\b(ltd|...|uk)\b` with `/g`). -/
def stripWordsAux (acc : List Char) : List Char → List Char
  | [] => flushWord acc
  | c :: cs =>
    if isWordCh c then stripWordsAux (c :: acc) cs
    else flushWord acc ++ c :: stripWordsAux [] cs

def stripSuffixWords (l : List Char) : List Char := stripWordsAux [] l

/-- The kept class of `replace(/[^a-z0-9\s&]/g, "")`. -/
def keepNormCh (c : Char) : Bool :=
  (97 ≤ c.toNat && c.toNat ≤ 122) || isDigitCh c || isJsWs c || c.toNat = 38

/-- `replace(/\s+/g, " ")`: collapse every white-space run to one space.
The boolean records whether the previous character was white space. -/
def collapseWsAux : Bool → List Char → List Char
  | _, [] => []
  | prevWs, c :: cs =>
    if isJsWs c then
      (if prevWs then collapseWsAux true cs else ' ' :: collapseWsAux true cs)
    else c :: collapseWsAux false cs

def collapseWs (l : List Char) : List Char := collapseWsAux false l

/-- Remove trailing white space (the right half of `.trim()`). -/
def dropTrailingWs : List Char → List Char
  | [] => []
  | c :: cs =>
    let r := dropTrailingWs cs
    if r.isEmpty && isJsWs c then [] else c :: r

/-- `.trim()`. -/
def jsTrim (l : List Char) : List Char :=
  dropTrailingWs (l.dropWhile (fun c => isJsWs c))

/-- `normalise` from `src/sponsor.js`: lowercase, strip quotes, delete
legal-entity suffix words, keep only `[a-z0-9\s&]`, collapse white space,
trim. -/
def normalise (s : String) : String :=
  String.mk (jsTrim (collapseWs (List.filter (fun c => keepNormCh c)
    (stripSuffixWords (List.filter (fun c => !(isQuoteCh c))
      (s.data.map jsToLower))))))

/-! Shape predicates used to analyse `normalise` outputs. -/

/-- No two adjacent white-space characters. -/
def noWsPair : List Char → Bool
  | c :: d :: rest => (!(isJsWs c && isJsWs d)) && noWsPair (d :: rest)
  | _ => true

/-- The first character, if any, is not white space. -/
def headOk : List Char → Bool
  | [] => true
  | c :: _ => !isJsWs c

/-- The last character, if any, is not white space. -/
def lastOk : List Char → Bool
  | [] => true
  | [c] => !isJsWs c
  | _ :: c :: cs => lastOk (c :: cs)

/-! ## Sponsor register lookup (src/sponsor.js, lines 177-235)

The process-global `sponsorMap` is modelled as an insertion-ordered
key/entry list (`none` before `loadSponsorRegister` has run); `parseCSV`
never produces duplicate keys, and `for .. of` over a JS `Map` iterates
insertion order, which `List.find?` reproduces. -/

structure SponsorEntry where
  name : String
  city : String
  rating : String
  routes : List String
deriving DecidableEq

/-- Result shape of `checkSponsor`; absent JS properties are `none`/`false`. -/
structure SponsorCheck where
  verified : Bool
  rating : Option String := none
  routes : Option (List String) := none
  officialName : Option String := none
  fuzzyMatch : Bool := false
deriving DecidableEq

def noSponsorMatch : SponsorCheck := { verified := false }

def GENERIC_COMPANY_NAMES : List String :=
  ["unknown", "see listing", "confidential", "not disclosed",
   "anonymous", "various", "multiple", "tbc", "tba",
   "not specified", "undisclosed", "company", "employer",
   "hiring company", "top company", "leading company"]

def ALIASES : List (String × String) :=
  [("pwc", "PricewaterhouseCoopers LLP"),
   ("ey", "Ernst & Young LLP"),
   ("bain", "Bain & Company"),
   ("wsp", "WSP Group Limited"),
   ("arup", "Ove Arup & Partners International Limited"),
   ("mott macdonald", "Mott MacDonald Limited"),
   ("mckinsey", "McKinsey & Company Inc. United Kingdom"),
   ("bcg", "The Boston Consulting Group UK LLP")]

/-- Lines 198-201: `if (ALIASES[key]) key = normalise(ALIASES[key])`. -/
def aliasTranslate (key : String) : String :=
  match ALIASES.lookup key with
  | some official => normalise official
  | none => key

/-- The key actually looked up in the registry: normalised input passed
through the alias table. -/
def aliasKey (companyName : String) : String :=
  aliasTranslate (normalise companyName)

/-- Does the list start with the given needle? (helper for `jsIncludes`). -/
def listStartsWith : List Char → List Char → Bool
  | _, [] => true
  | [], _ :: _ => false
  | c :: cs, d :: ds => c == d && listStartsWith cs ds

/-- JavaScript `String.prototype.includes`: the needle occurs as a
contiguous run of the haystack. -/
def jsIncludes : List Char → List Char → Bool
  | [], needle => listStartsWith [] needle
  | c :: cs, needle => listStartsWith (c :: cs) needle || jsIncludes cs needle

/-- The fuzzy-scan acceptance test for one registry key (lines 217-231):
registry key at least 5 characters, shorter/longer length ratio at least
0.5, and the shorter contained in the longer. -/
def fuzzyHit (key sponsorKey : String) : Bool :=
  decide (5 ≤ sponsorKey.length) &&
    (let shorter := if key.length ≤ sponsorKey.length then key else sponsorKey
     let longer := if key.length > sponsorKey.length then key else sponsorKey
     decide (mkRat 1 2 ≤ mkRat (shorter.length : Int) longer.length) &&
       jsIncludes longer.data shorter.data)

/-- The result built for a registry hit. -/
def sponsorFound (e : String × SponsorEntry) (fuzzy : Bool) : SponsorCheck :=
  { verified := true, rating := some e.2.rating,
    routes := some e.2.routes, officialName := some e.2.name,
    fuzzyMatch := fuzzy }

/-- `checkSponsor` from `src/sponsor.js` (lines 189-235). -/
def checkSponsor : Option (List (String × SponsorEntry)) → String →
    SponsorCheck
  | none, _ => noSponsorMatch
  | some reg, companyName =>
    if companyName = "" then noSponsorMatch
    else
      let key := normalise companyName
      if key = "" then noSponsorMatch
      else if GENERIC_COMPANY_NAMES.contains key then noSponsorMatch
      else
        let key := aliasTranslate key
        match reg.find? (fun e => e.1 == key) with
        | some e => sponsorFound e false
        | none =>
          if 5 ≤ key.length then
            match reg.find? (fun e => fuzzyHit key e.1) with
            | some e => sponsorFound e true
            | none => noSponsorMatch
          else noSponsorMatch

/-! ## Exact JS-number arithmetic

The salary parser and the rankers compute with JS numbers.  Every number
they build is a rational with small numerator and denominator, and every
comparison/rounding the code performs is far enough from the float
rounding error that exact rational arithmetic gives the same results.
`JsNum` is an exact rational pair; the denominator is kept positive by
construction. -/

structure JsNum where
  num : Int
  den : Int
deriving DecidableEq

def JsNum.mul (a b : JsNum) : JsNum := ⟨a.num * b.num, a.den * b.den⟩

def JsNum.add (a b : JsNum) : JsNum :=
  ⟨a.num * b.den + b.num * a.den, a.den * b.den⟩

def JsNum.lt (a b : JsNum) : Bool := decide (a.num * b.den < b.num * a.den)

def JsNum.floor (a : JsNum) : Int := Int.fdiv a.num a.den

/-- `Math.round`: `⌊x + 1/2⌋` (ties toward plus infinity). -/
def jsRound (a : JsNum) : Int := JsNum.floor (JsNum.add a ⟨1, 2⟩)

def JsNum.ofInt (n : Int) : JsNum := ⟨n, 1⟩

/-! ## A miniature backtracking regex engine

The repository's regexes are simple (literals, character classes, `+`,
`*`, `?`, alternation, `\b`), so they are modelled by combinators in
continuation-passing style with the same leftmost/greedy preference
order as the JS engine. -/

/-- Continuation: remaining input and previous character. -/
abbrev ReK := List Char → Option Char → Option (List Char)

/-- A regex fragment: input, previous character and continuation to the
suffix remaining after a complete match, trying alternatives in the
engine's preference order. -/
abbrev ReP := List Char → Option Char → ReK → Option (List Char)

/-- Single character from a class. -/
def pCls (f : Char → Bool) : ReP := fun l _ k =>
  match l with
  | [] => none
  | c :: rest => if f c then k rest (some c) else none

def pSeq (a b : ReP) : ReP := fun l pc k =>
  a l pc (fun rest pc2 => b rest pc2 k)

/-- Ordered alternation (`a` preferred). -/
def pAlt (a b : ReP) : ReP := fun l pc k =>
  (a l pc k).orElse (fun _ => b l pc k)

/-- Greedy `?`. -/
def pOpt (a : ReP) : ReP := fun l pc k =>
  (a l pc k).orElse (fun _ => k l pc)

/-- Greedy `*` over a character class, with backtracking. -/
def pStarClsAux (f : Char → Bool) : List Char → Option Char → ReK →
    Option (List Char)
  | [], pc, k => k [] pc
  | c :: rest, pc, k =>
    if f c then
      (pStarClsAux f rest (some c) k).orElse (fun _ => k (c :: rest) pc)
    else k (c :: rest) pc

def pStarCls (f : Char → Bool) : ReP := fun l pc k => pStarClsAux f l pc k

/-- Greedy `+` over a character class. -/
def pPlusCls (f : Char → Bool) : ReP := pSeq (pCls f) (pStarCls f)

def isWordOpt : Option Char → Bool
  | some c => isWordCh c
  | none => false

/-- The `\b` word-boundary assertion. -/
def pWb : ReP := fun l pc k =>
  if isWordOpt pc != isWordOpt l.head? then k l pc else none

/-- A literal string. -/
def pStr : List Char → ReP
  | [] => fun l pc k => k l pc
  | c :: cs => pSeq (pCls (fun d => d == c)) (pStr cs)

def pStrS (s : String) : ReP := pStr s.data

/-- Try a full match at the current position; return the remaining
suffix. -/
def reMatchAt (p : ReP) (l : List Char) (pc : Option Char) :
    Option (List Char) :=
  p l pc (fun rest _ => some rest)

/-- `regex.test(s)`: does a match start anywhere? -/
def reSearchAux (p : ReP) : List Char → Option Char → Bool
  | [], pc => (reMatchAt p [] pc).isSome
  | c :: rest, pc =>
    (reMatchAt p (c :: rest) pc).isSome || reSearchAux p rest (some c)

def reTest (p : ReP) (s : String) : Bool := reSearchAux p s.data none

/-- `s.match(re)` with `/g`: the list of successive leftmost matches.
The fuel starts at `length + 1` and strictly bounds the number of
advance steps.  (None of the modelled patterns can match the empty
string, so the `n = 0` safety branch never records a match, exactly as
the code's patterns never produce one.) -/
def reFindAllAux (p : ReP) : Nat → List Char → Option Char →
    List (List Char)
  | 0, _, _ => []
  | _ + 1, [], _ => []
  | fuel + 1, c :: rest, pc =>
    match reMatchAt p (c :: rest) pc with
    | some r =>
      let n := (c :: rest).length - r.length
      if n = 0 then reFindAllAux p fuel rest (some c)
      else ((c :: rest).take n) ::
        reFindAllAux p fuel r (some (((c :: rest).take n).getLastD c))
    | none => reFindAllAux p fuel rest (some c)

def reFindAll (p : ReP) (l : List Char) : List (List Char) :=
  reFindAllAux p (l.length + 1) l none

/-! ## `parseSalary` (scorer module, lines 227-281) -/

/-- Numeric value of a digit string (`Number` / integer `parseFloat`). -/
def digitsVal (l : List Char) : Int :=
  l.foldl (fun acc c => acc * 10 + (c.toNat - 48 : Nat)) 0

/-- `parseFloat` restricted to the shapes the cleaned salary matches can
take (`digits`, `digits.digits`, trailing junk such as `k` ignored);
`none` models `NaN`. -/
def jsParseFloat (l : List Char) : Option JsNum :=
  let intDigits := l.takeWhile isDigitCh
  let rest := l.dropWhile isDigitCh
  if intDigits.isEmpty then none
  else
    match rest with
    | '.' :: rest2 =>
      let fracDigits := rest2.takeWhile isDigitCh
      some ⟨digitsVal intDigits * (10 : Int) ^ fracDigits.length +
              digitsVal fracDigits,
            (10 : Int) ^ fracDigits.length⟩
    | _ => some ⟨digitsVal intDigits, 1⟩

/-- `\d+(?:\.\d+)?`. -/
def numPat : ReP :=
  pSeq (pPlusCls isDigitCh)
    (pOpt (pSeq (pCls (fun c => c == '.')) (pPlusCls isDigitCh)))

/-- `/[£](\d+(?:\.\d+)?)\s*k?\b/g`. -/
def gbpPat1 : ReP :=
  pSeq (pCls (fun c => c == '£'))
    (pSeq numPat (pSeq (pStarCls isJsWs)
      (pSeq (pOpt (pCls (fun c => c == 'k'))) pWb)))

/-- `/gbp\s*(\d+(?:\.\d+)?)\s*k?\b/gi` (text already lowercased). -/
def gbpPat2 : ReP :=
  pSeq (pStrS "gbp") (pSeq (pStarCls isJsWs)
    (pSeq numPat (pSeq (pStarCls isJsWs)
      (pSeq (pOpt (pCls (fun c => c == 'k'))) pWb))))

/-- `/(?:usd|\$)\s*(\d+(?:\.\d+)?)\s*k?\b/gi`. -/
def usdPat : ReP :=
  pSeq (pAlt (pStrS "usd") (pCls (fun c => c == '$')))
    (pSeq (pStarCls isJsWs) (pSeq numPat (pSeq (pStarCls isJsWs)
      (pSeq (pOpt (pCls (fun c => c == 'k'))) pWb))))

/-- `/(?:eur|€)\s*(\d+(?:\.\d+)?)\s*k?\b/gi`. -/
def eurPat : ReP :=
  pSeq (pAlt (pStrS "eur") (pCls (fun c => c == '€')))
    (pSeq (pStarCls isJsWs) (pSeq numPat (pSeq (pStarCls isJsWs)
      (pSeq (pOpt (pCls (fun c => c == 'k'))) pWb))))

/-- `/(\d{4,6})/g` (greedy bounded repetition). -/
def barePat : ReP :=
  pSeq (pCls isDigitCh) (pSeq (pCls isDigitCh) (pSeq (pCls isDigitCh)
    (pSeq (pCls isDigitCh)
      (pOpt (pSeq (pCls isDigitCh) (pOpt (pCls isDigitCh)))))))

/-- Cleaning class `[£gbp\s]` of the GBP branch. -/
def gbpClean (c : Char) : Bool :=
  c == '£' || c == 'g' || c == 'b' || c == 'p' || isJsWs c

/-- Cleaning class `[usd$\s]`. -/
def usdClean (c : Char) : Bool :=
  c == 'u' || c == 's' || c == 'd' || c == '$' || isJsWs c

/-- Cleaning class `[eur€\s]`. -/
def eurClean (c : Char) : Bool :=
  c == 'e' || c == 'u' || c == 'r' || c == '€' || isJsWs c

/-- One currency block of `parseSalary` (the source repeats this block
for GBP, USD and EUR): clean each match, `parseFloat`, treat values
under 500 as thousands, optionally currency-convert, keep positives. -/
def currencyNums (ms : List (List Char)) (cleanCls : Char → Bool)
    (conv : Option JsNum) : List JsNum :=
  ((ms.map (fun m =>
      (jsParseFloat (m.filter (fun c => !(cleanCls c)))).map (fun v0 =>
        let v := if JsNum.lt v0 ⟨500, 1⟩ then JsNum.mul v0 ⟨1000, 1⟩ else v0
        match conv with
        | some r => JsNum.mul v r
        | none => v))).filterMap id).filter
    (fun n => JsNum.lt ⟨0, 1⟩ n)

/-- Two or more figures: rounded midpoint of the first two; exactly
one: rounded; none: fall through to the next currency block. -/
def midpointRound : List JsNum → Option Int
  | a :: b :: _ => some (jsRound (JsNum.mul (JsNum.add a b) ⟨1, 2⟩))
  | [a] => some (jsRound a)
  | [] => none

/-- `parseSalary` from the scorer module (lines 227-281). -/
def parseSalary (salaryStr : Option String) : Option Int :=
  match salaryStr with
  | none => none
  | some str =>
    if str = "" then none
    else
      let text := (str.data.filter (fun c => !(c == ','))).map jsToLower
      let gbp1 := reFindAll gbpPat1 text
      let gbpMatch := if gbp1.isEmpty then reFindAll gbpPat2 text else gbp1
      match midpointRound (currencyNums gbpMatch gbpClean none) with
      | some r => some r
      | none =>
        match midpointRound
            (currencyNums (reFindAll usdPat text) usdClean (some ⟨79, 100⟩)) with
        | some r => some r
        | none =>
          match midpointRound
              (currencyNums (reFindAll eurPat text) eurClean (some ⟨85, 100⟩)) with
          | some r => some r
          | none =>
            let bare := (reFindAll barePat text).map (fun m => digitsVal m)
            let nums := bare.filter
              (fun n => decide (15000 ≤ n) && decide (n ≤ 300000))
            match nums with
            | a :: _ :: _ =>
              some (jsRound (JsNum.mul
                (JsNum.add ⟨a, 1⟩ ⟨nums.getLastD a, 1⟩) ⟨1, 2⟩))
            | [a] => some a
            | [] => none

/-! ## Visa confidence (scorer module, lines 181-194 and 301-328) -/

def GENERAL_THRESHOLD : Int := 41700

structure SocRate where
  title : String
  standard : Int
  newEntrant : Int
deriving DecidableEq

def SOC_GOING_RATES : List (String × SocRate) :=
  [("2431", ⟨"Management consultants", 50200, 36000⟩),
   ("2152", ⟨"Environment professionals", 37200, 31400⟩),
   ("2151", ⟨"Conservation professionals", 36000, 29800⟩),
   ("3545", ⟨"Data analysts", 34900, 28600⟩),
   ("2425", ⟨"Actuaries, economists, statisticians", 43600, 33400⟩),
   ("2424", ⟨"Business & financial project mgmt", 41700, 33100⟩),
   ("2423", ⟨"Management consultants & analysts", 41700, 33100⟩),
   ("2136", ⟨"Programmers & software developers", 45100, 34200⟩),
   ("2463", ⟨"Environmental health professionals", 35400, 29000⟩)]

/-- JS `a || b` on nullable numbers: `null` and `0` are falsy. -/
def jsOrNum (a : Option Int) (b : Option Int) : Option Int :=
  match a with
  | some n => if n = 0 then b else some n
  | none => b

/-- The fields of the job object `computeVisaConfidence` reads. -/
structure ScorerJob where
  verified_sponsor : Int
  soc_code : Option String
  salary_num : Option Int
  salary : Option String

/-- The effective numeric salary: `job.salary_num || parseSalary(job.salary)`. -/
def effectiveSalary (job : ScorerJob) : Option Int :=
  jsOrNum job.salary_num (parseSalary job.salary)

/-- `SOC_GOING_RATES[job.soc_code]` guarded by the truthiness of
`job.soc_code`. -/
def socInfoOf (job : ScorerJob) : Option SocRate :=
  match job.soc_code with
  | some c => if c = "" then none else SOC_GOING_RATES.lookup c
  | none => none

/-- `computeVisaConfidence` (lines 301-328): the traffic-light string.
The human-readable `reason` field is presentation only and is not
modelled. -/
def computeVisaConfidence (job : ScorerJob) : String :=
  let isVerified := decide (job.verified_sponsor = 1)
  let salaryNum := effectiveSalary job
  if !isVerified then "red"
  else
    let socInfo := socInfoOf job
    let threshold :=
      match socInfo with
      | some info => max info.newEntrant GENERAL_THRESHOLD
      | none => GENERAL_THRESHOLD
    match salaryNum with
    | none => "yellow"
    | some n =>
      if n = 0 then "yellow"
      else if threshold ≤ n then "green"
      else "yellow"

/-! ## Success probability (scorer module, lines 333-338) -/

/-- The `visaMultiplier` object literal. -/
def visaMultiplier : List (String × JsNum) :=
  [("green", ⟨1, 1⟩), ("yellow", ⟨55, 100⟩), ("red", ⟨15, 100⟩),
   ("unknown", ⟨3, 10⟩)]

/-- JS `a || b` on nullable numbers, returning the JS-number default. -/
def jsOrJsNum (a : Option JsNum) (b : JsNum) : JsNum :=
  match a with
  | some q => if q.num = 0 then b else q
  | none => b

/-- `computeSuccessProbability`:
`Math.round(matchScore * 0.6 + visaScore * 0.4)` with
`visaScore = (visaMultiplier[visaConfidence] || 0.3) * 100`. -/
def computeSuccessProbability (matchScore : Int) (visaConfidence : String) :
    Int :=
  let visaScore :=
    JsNum.mul (jsOrJsNum (visaMultiplier.lookup visaConfidence) ⟨3, 10⟩)
      ⟨100, 1⟩
  jsRound (JsNum.add (JsNum.mul (JsNum.ofInt matchScore) ⟨6, 10⟩)
    (JsNum.mul visaScore ⟨4, 10⟩))

/-! ## Heuristic relevance scorer (scorer module, lines 343-503) -/

/-- `stripHtml`: `<[^>]*>` → space, collapse white space, trim.  A `<`
with no later `>` cannot start a tag match and is kept. -/
def stripTagsAux : List Char → List Char
  | [] => []
  | c :: cs =>
    if c == '<' && cs.contains '>' then
      ' ' :: stripTagsAux ((cs.dropWhile (fun d => !(d == '>'))).drop 1)
    else c :: stripTagsAux cs
termination_by l => l.length
decreasing_by
  · have h1 : (cs.dropWhile (fun d => !(d == '>'))).length ≤ cs.length :=
      (List.dropWhile_sublist _).length_le
    simp only [List.length_drop, List.length_cons]
    omega
  · simp

def stripHtml (html : String) : String :=
  String.mk (jsTrim (collapseWs (stripTagsAux html.data)))

/-- `A\s+B` patterns such as `/sustainability\s+consult/i`. -/
def pTwoWords (a b : String) : ReP :=
  pSeq (pStrS a) (pSeq (pPlusCls isJsWs) (pStrS b))

/-- `/\besg\b/i`. -/
def pWordEsg : ReP := pSeq pWb (pSeq (pStrS "esg") pWb)

/-- `/\bcsr\b/i`. -/
def pWordCsr : ReP := pSeq pWb (pSeq (pStrS "csr") pWb)

/-- The `.` of `/net.zero/i` (any character except line terminators). -/
def jsDot (c : Char) : Bool := !(c == '\n' || c == '\r')

/-- `/net.zero/i`. -/
def pNetZero : ReP := pSeq (pStrS "net") (pSeq (pCls jsDot) (pStrS "zero"))

structure RoleTerm where
  pattern : ReP
  weight : Int
  label : String

/-- `ROLE_PRIORITY_TERMS` (lines 343-375); patterns are matched against
the lowercased title, which for these ASCII patterns is the `/i` flag. -/
def ROLE_PRIORITY_TERMS : List RoleTerm :=
  [⟨pTwoWords "sustainability" "consult", 30, "Sustainability Consultant"⟩,
   ⟨pTwoWords "esg" "consult", 28, "ESG Consulting"⟩,
   ⟨pTwoWords "sustainability" "communicat", 27, "Sustainability Communications"⟩,
   ⟨pTwoWords "esg" "communicat", 26, "ESG Communications"⟩,
   ⟨pTwoWords "esg" "analyst", 25, "ESG Analyst"⟩,
   ⟨pTwoWords "sustainability" "analyst", 25, "Sustainability Analyst"⟩,
   ⟨pTwoWords "climate" "consult", 25, "Climate Consulting"⟩,
   ⟨pTwoWords "sustainability" "report", 24, "Sustainability Reporting"⟩,
   ⟨pTwoWords "esg" "report", 23, "ESG Reporting"⟩,
   ⟨pTwoWords "csr" "communicat", 22, "CSR Communications"⟩,
   ⟨pTwoWords "sustainability" "manager", 21, "Sustainability Manager"⟩,
   ⟨pTwoWords "esg" "manager", 20, "ESG Manager"⟩,
   ⟨pTwoWords "esg" "advisor", 20, "ESG Advisory"⟩,
   ⟨pTwoWords "sustainability" "director", 19, "Sustainability Director"⟩,
   ⟨pTwoWords "sustainability" "lead", 19, "Sustainability Lead"⟩,
   ⟨pTwoWords "climate" "risk", 18, "Climate Risk"⟩,
   ⟨pTwoWords "stakeholder" "engagement", 18, "Stakeholder Engagement"⟩,
   ⟨pStrS "sustainability", 15, "Sustainability"⟩,
   ⟨pWordEsg, 15, "ESG"⟩,
   ⟨pStrS "climate", 12, "Climate"⟩,
   ⟨pStrS "carbon", 12, "Carbon"⟩,
   ⟨pNetZero, 12, "Net Zero"⟩,
   ⟨pWordCsr, 12, "CSR"⟩,
   ⟨pStrS "environment", 10, "Environment"⟩,
   ⟨pStrS "consult", 0, "_consulting"⟩,
   ⟨pStrS "advisory", 0, "_advisory"⟩,
   ⟨pStrS "communicat", 0, "_communications"⟩]

def ESG_DEEP_TERMS : List String :=
  ["tcfd", "sfdr", "csrd", "gri", "scope 1", "scope 2", "scope 3",
   "double materiality", "taxonomy", "sdg", "green bond",
   "decarbonisation", "decarbonization", "circular economy",
   "energy transition", "biodiversity", "stakeholder engagement",
   "responsible investment", "impact investing",
   "sustainability report", "non-financial reporting", "integrated reporting",
   "esg disclosure", "sustainability disclosure", "materiality assessment",
   "corporate communications", "sustainability communications",
   "science-based targets", "sbti", "net zero commitment",
   "just transition", "climate adaptation", "nature-based"]

def VISA_SIGNAL_TERMS : List String :=
  ["visa sponsor", "sponsorship", "skilled worker visa",
   "right to work", "will sponsor", "visa support",
   "relocation support", "relocation package", "international candidates",
   "work permit"]

/-- `/consult|advisory|advisor/i` (step 3, first sub-bonus). -/
def consultAdvPat : ReP :=
  pAlt (pStrS "consult") (pAlt (pStrS "advisory") (pStrS "advisor"))

/-- `/communicat|report|disclosure/i` (step 3, second sub-bonus). -/
def commRepPat : ReP :=
  pAlt (pStrS "communicat") (pAlt (pStrS "report") (pStrS "disclosure"))

/-- The fields of the job object `computeHeuristicScore` reads. -/
structure HeuristicJob where
  title : Option String
  description : Option String
  location : Option String
  salary : Option String
  remote : Int
  verified_sponsor : Int
  visa_sponsorship : Int

/-- Step 1 (lines 409-421): best single matching title pattern wins. -/
def rolePtsOf (titleLower : String) : Int :=
  ROLE_PRIORITY_TERMS.foldl
    (fun acc t =>
      if reTest t.pattern titleLower && decide (acc < t.weight) then t.weight
      else acc)
    0

/-- Step 2 (lines 423-435): distinct deep terms found in title+description. -/
def esgHitsOf (allText : String) : List String :=
  ESG_DEEP_TERMS.filter (fun term => jsIncludes allText.data term.data)

/-- 3 points per distinct deep term, capped at 25. -/
def esgDepthPoints (n : Nat) : Int := min (3 * (n : Int)) 25

/-- Step 5 (lines 461-468): visa-signal phrases found. -/
def visaHitsOf (allText : String) : Nat :=
  (VISA_SIGNAL_TERMS.filter (fun term => jsIncludes allText.data term.data)).length

/-- JS string truthiness (`null`, `undefined` and `""` are falsy). -/
def jsTruthyStr : Option String → Bool
  | some s => !(s == "")
  | none => false

/-- The additive point model of `computeHeuristicScore` (lines 401-503)
as a function of the extracted boolean/count features, in the order the
source accumulates them. -/
def scoreFromFeatures (rolePts : Int) (esgHitCount : Nat)
    (consultTitle commTitle verifiedSponsor visaListed : Bool)
    (visaHitCount : Nat) (londonLoc ukLoc remoteFlag salaryPresent : Bool) :
    Int :=
  let esgDepthPts := esgDepthPoints esgHitCount
  let hasESGContext := decide (0 < esgHitCount) || decide (10 ≤ rolePts)
  let score := rolePts + esgDepthPts
  let score := score +
    (if hasESGContext && consultTitle then 8 else 0) +
    (if hasESGContext && commTitle then 6 else 0)
  let score := score +
    (if verifiedSponsor then (if hasESGContext then 20 else 5)
     else if visaListed then (if hasESGContext then 10 else 3) else 0)
  let score := score + min (3 * (visaHitCount : Int)) 10
  let score := score +
    (if londonLoc then 10 else if ukLoc then 7
     else if remoteFlag then 5 else 0)
  let score := score + (if salaryPresent then 5 else 0)
  let score :=
    if !hasESGContext && decide (rolePts = 0) then max (score - 15) 0
    else score
  min score 100

/-- `computeHeuristicScore` (lines 401-503): feature extraction followed
by the additive point model.  Only the numeric score is modelled; the
`reasons` strings are presentation and never feed back into the score. -/
def computeHeuristicScore (job : HeuristicJob) : Int :=
  let titleLower := jsToLowerStr (job.title.getD "")
  let descLower := jsToLowerStr (stripHtml (job.description.getD ""))
  let allText := titleLower ++ " " ++ descLower
  let locLower := jsToLowerStr (job.location.getD "")
  scoreFromFeatures
    (rolePtsOf titleLower)
    (esgHitsOf allText).length
    (reTest consultAdvPat titleLower)
    (reTest commRepPat titleLower)
    (decide (job.verified_sponsor = 1))
    (decide (job.visa_sponsorship = 1))
    (visaHitsOf allText)
    (jsIncludes locLower.data "london".data)
    (jsIncludes locLower.data "uk".data ||
      jsIncludes locLower.data "united kingdom".data)
    (decide (job.remote = 1))
    (jsTruthyStr job.salary)

/-! ## Ingestion/storage layer (fetcher and db modules) -/

/-- JS `a || d` on nullable numbers with a number default. -/
def jsOrNumD (a : Option Int) (d : Int) : Int :=
  match a with
  | some n => if n = 0 then d else n
  | none => d

/-- JS `a || d` on nullable strings with a string default. -/
def jsOrStrD (a : Option String) (d : String) : String :=
  match a with
  | some s => if s = "" then d else s
  | none => d

/-- JS `a || null` on nullable strings. -/
def jsOrStrN (a : Option String) : Option String :=
  match a with
  | some s => if s = "" then none else some s
  | none => none

/-- A record as handed to `db.upsertJobs` (a scored JS job object;
fields a source may omit are optional, the upsert applies `||`
defaults). -/
structure IncomingJob where
  id : String
  title : String
  company : String
  location : String
  description : Option String
  url : String
  source : String
  tags : Option String
  job_type : Option String
  remote : Int
  visa_sponsorship : Int
  salary : Option String
  company_logo : Option String
  posted_at : Option String
  fetched_at : String
  verified_sponsor : Option Int
  sponsor_rating : Option String
  match_score : Option Int
  ai_summary : Option String
  role_priority : Option Int
  status : Option String
  notes : Option String
  soc_code : Option String
  salary_num : Option Int
  visa_confidence : Option String
  success_probability : Option Int
  is_bcorp : Option Int
deriving DecidableEq

/-- A stored row of the `jobs` table (schema of `initialize`, V4). -/
structure JobRow where
  id : String
  title : String
  company : String
  location : String
  description : Option String
  url : String
  source : String
  tags : Option String
  job_type : Option String
  remote : Int
  visa_sponsorship : Int
  salary : Option String
  company_logo : Option String
  posted_at : Option String
  fetched_at : String
  saved : Int
  verified_sponsor : Int
  sponsor_rating : Option String
  match_score : Int
  ai_summary : Option String
  role_priority : Int
  status : String
  notes : Option String
  soc_code : Option String
  salary_num : Option Int
  visa_confidence : String
  success_probability : Int
  is_bcorp : Int
deriving DecidableEq

/-- One `INSERT OR REPLACE` of `upsertJobs` (fetcher.js db module,
lines 1507-1566).  SQLite REPLACE deletes the conflicting row and
inserts a fresh one; the `COALESCE((SELECT .. FROM jobs WHERE id=@id),
@x)` subqueries are evaluated against the pre-existing row.  The `saved`
column is absent from the INSERT column list, so the inserted row takes
its column default `0`. -/
def upsertRow (table : List JobRow) (row : IncomingJob) : List JobRow :=
  let existing := table.find? (fun r => r.id == row.id)
  let newRow : JobRow :=
    { id := row.id, title := row.title, company := row.company,
      location := row.location, description := row.description,
      url := row.url, source := row.source, tags := row.tags,
      job_type := row.job_type, remote := row.remote,
      visa_sponsorship := row.visa_sponsorship, salary := row.salary,
      company_logo := row.company_logo, posted_at := row.posted_at,
      fetched_at := row.fetched_at,
      saved := 0,
      verified_sponsor := jsOrNumD row.verified_sponsor 0,
      sponsor_rating := jsOrStrN row.sponsor_rating,
      match_score := jsOrNumD row.match_score 0,
      ai_summary := jsOrStrN row.ai_summary,
      role_priority := jsOrNumD row.role_priority 0,
      status :=
        match existing with
        | some r => r.status
        | none => jsOrStrD row.status "new",
      notes :=
        match existing with
        | some r =>
          (match r.notes with
           | some n => some n
           | none => jsOrStrN row.notes)
        | none => jsOrStrN row.notes,
      soc_code := jsOrStrN row.soc_code,
      salary_num := jsOrNum row.salary_num none,
      visa_confidence := jsOrStrD row.visa_confidence "unknown",
      success_probability := jsOrNumD row.success_probability 0,
      is_bcorp := jsOrNumD row.is_bcorp 0 }
  table.filter (fun r => !(r.id == row.id)) ++ [newRow]

/-- `upsertJobs`: one transaction over the batch. -/
def upsertJobs (table : List JobRow) (jobs : List IncomingJob) :
    List JobRow :=
  jobs.foldl upsertRow table

/-- Lines 1366-1374 of `fetchAllJobs`: the quality gate applied to the
scored batch; exactly this list is handed to `db.upsertJobs`.  (A JS
`null`/`undefined` score compares false against the minimum.) -/
def MIN_SCORE : Int := 3

def qualityJobsOf (scoredJobs : List IncomingJob) : List IncomingJob :=
  scoredJobs.filter (fun j => decide (MIN_SCORE ≤ jsOrNumD j.match_score 0))

/-- `VALID_STATUSES` (fetcher.js db module, line 1667). -/
def VALID_STATUSES : List String :=
  ["new", "to_apply", "applied", "interviewing", "offer", "rejected",
   "archived"]

/-- `updateStatus` (lines 1669-1678): invalid enum value throws before
any write; a valid one is written verbatim to every row with the id and
read back (`none` when the id is absent). -/
def updateStatus (table : List JobRow) (jobId status : String) :
    Except String (List JobRow × Option String) :=
  if !(VALID_STATUSES.contains status) then
    Except.error ("Invalid status: " ++ status ++ ". Must be one of: " ++
      String.intercalate ", " VALID_STATUSES)
  else
    let table2 := table.map
      (fun r => if r.id == jobId then { r with status := status } else r)
    let row := table2.find? (fun r => r.id == jobId)
    Except.ok (table2, row.map (fun r => r.status))

/-! ## Enrichment (fetcher.js, lines 642-692) -/

structure RolePriorityPat where
  re : ReP
  priority : Int

/-- `ROLE_PRIORITY_PATTERNS` (lines 642-661), matched against the
lowercased title (the `/i` flag for these ASCII patterns). -/
def ROLE_PRIORITY_PATTERNS : List RolePriorityPat :=
  [⟨pTwoWords "sustainability" "consultant", 100⟩,
   ⟨pTwoWords "esg" "analyst", 95⟩,
   ⟨pTwoWords "esg" "consult", 90⟩,
   ⟨pTwoWords "sustainability" "analyst", 88⟩,
   ⟨pTwoWords "climate" "consult", 85⟩,
   ⟨pTwoWords "sustainability" "manager", 80⟩,
   ⟨pTwoWords "esg" "manager", 78⟩,
   ⟨pTwoWords "esg" "advisor", 75⟩,
   ⟨pTwoWords "sustainability" "director", 72⟩,
   ⟨pTwoWords "sustainability" "lead", 70⟩,
   ⟨pTwoWords "climate" "risk", 68⟩,
   ⟨pStrS "esg", 50⟩,
   ⟨pStrS "sustainability", 48⟩,
   ⟨pStrS "climate", 40⟩,
   ⟨pStrS "environment", 35⟩,
   ⟨pStrS "consult", 20⟩,
   ⟨pStrS "advisory", 20⟩,
   ⟨pStrS "impact", 15⟩]

/-- `getRolePriority` (lines 663-668): first matching pattern wins. -/
def getRolePriority (title : String) : Int :=
  match ROLE_PRIORITY_PATTERNS.find?
      (fun p => reTest p.re (jsToLowerStr title)) with
  | some p => p.priority
  | none => 0

/-- `enrichJob` (lines 673-692): sponsor verification, the
`visa_sponsorship` forcing, role priority, and scoring-field defaults. -/
def enrichJob (sponsorReg : Option (List (String × SponsorEntry)))
    (rawJob : IncomingJob) : IncomingJob :=
  let sponsorResult := checkSponsor sponsorReg rawJob.company
  { rawJob with
    verified_sponsor := some (if sponsorResult.verified then 1 else 0),
    sponsor_rating :=
      if sponsorResult.verified then sponsorResult.rating else none,
    visa_sponsorship :=
      if sponsorResult.verified then 1 else rawJob.visa_sponsorship,
    role_priority := some (getRolePriority rawJob.title),
    match_score := some (jsOrNumD rawJob.match_score 0),
    ai_summary := jsOrStrN rawJob.ai_summary }

/-! ## Concrete fixtures used by the closed instance theorems -/

def sponsorRegEx : List (String × SponsorEntry) :=
  [("acme widgets", ⟨"Acme Widgets Ltd", "London", "A", ["Skilled Worker"]⟩)]

def entryAb : SponsorEntry := ⟨"AB Ltd", "London", "A", ["Skilled Worker"]⟩

def entryBain : SponsorEntry :=
  ⟨"Bain & Company Partners", "London", "A", ["Skilled Worker"]⟩

def rowEx : JobRow :=
  { id := "j1", title := "ESG Analyst", company := "Acme Widgets Ltd",
    location := "London", description := none, url := "u", source := "Reed",
    tags := none, job_type := none, remote := 0, visa_sponsorship := 1,
    salary := some "£45k", company_logo := none, posted_at := none,
    fetched_at := "2026-02-01", saved := 0, verified_sponsor := 1,
    sponsor_rating := some "A", match_score := 55, ai_summary := none,
    role_priority := 95, status := "new", notes := none,
    soc_code := some "3545", salary_num := some 45000,
    visa_confidence := "green", success_probability := 70, is_bcorp := 0 }

/-- The stored row after the user bookmarked it, set a status and wrote
a note. -/
def rowUserEdited : JobRow :=
  { rowEx with
    saved := 1, status := "applied", notes := some "mine",
    visa_confidence := "yellow" }

/-- The same posting re-ingested with freshly computed derived fields. -/
def incReingest : IncomingJob :=
  { id := "j1", title := "ESG Analyst", company := "Acme Widgets Ltd",
    location := "London", description := none, url := "u", source := "Reed",
    tags := none, job_type := none, remote := 0, visa_sponsorship := 1,
    salary := some "£45k", company_logo := none, posted_at := none,
    fetched_at := "2026-02-02", verified_sponsor := some 1,
    sponsor_rating := some "A", match_score := some 77, ai_summary := none,
    role_priority := some 95, status := none, notes := none,
    soc_code := some "3545", salary_num := some 45000,
    visa_confidence := some "green", success_probability := some 80,
    is_bcorp := some 0 }

def incQualityLo : IncomingJob :=
  { incReingest with id := "j2", match_score := some 0 }

/-- A raw job the source handed in with `visa_sponsorship = 0`. -/
def incUnflagged : IncomingJob :=
  { incReingest with visa_sponsorship := 0, verified_sponsor := none }

/-! ## Lemmas about the `normalise` pipeline -/

theorem map_id_of (l : List Char) (f : Char → Char) (h : ∀ c ∈ l, f c = c) :
    l.map f = l := by
  induction l with
  | nil => rfl
  | cons c cs ih =>
    simp only [List.map_cons, h c (List.mem_cons_self c cs)]
    rw [ih (fun d hd => h d (List.mem_cons_of_mem c hd))]

theorem mem_collapseWsAux {c : Char} :
    ∀ (b : Bool) (l : List Char), c ∈ collapseWsAux b l → c = ' ' ∨ c ∈ l := by
  intro b l
  induction l generalizing b with
  | nil => simp [collapseWsAux]
  | cons d ds ih =>
    simp only [collapseWsAux]
    split
    · split
      · intro h
        rcases ih true h with h1 | h1
        · exact Or.inl h1
        · exact Or.inr (List.mem_cons_of_mem _ h1)
      · intro h
        rcases List.mem_cons.mp h with h1 | h1
        · exact Or.inl h1
        · rcases ih true h1 with h2 | h2
          · exact Or.inl h2
          · exact Or.inr (List.mem_cons_of_mem _ h2)
    · intro h
      rcases List.mem_cons.mp h with h1 | h1
      · subst h1; exact Or.inr (List.mem_cons_self _ _)
      · rcases ih false h1 with h2 | h2
        · exact Or.inl h2
        · exact Or.inr (List.mem_cons_of_mem _ h2)

theorem mem_dropTrailingWs {c : Char} :
    ∀ {l : List Char}, c ∈ dropTrailingWs l → c ∈ l := by
  intro l
  induction l with
  | nil => simp [dropTrailingWs]
  | cons d ds ih =>
    simp only [dropTrailingWs]
    split
    · intro h; simp at h
    · intro h
      rcases List.mem_cons.mp h with h1 | h1
      · subst h1; exact List.mem_cons_self _ _
      · exact List.mem_cons_of_mem _ (ih h1)

theorem mem_jsTrim {c : Char} {l : List Char} (h : c ∈ jsTrim l) : c ∈ l := by
  unfold jsTrim at h
  exact (List.dropWhile_sublist _).subset (mem_dropTrailingWs h)

theorem noWsPair_cons_pair (x : Char) (l : List Char)
    (h1 : ∀ y, l.head? = some y → (!(isJsWs x && isJsWs y)) = true)
    (h2 : noWsPair l = true) : noWsPair (x :: l) = true := by
  cases l with
  | nil => simp [noWsPair]
  | cons y ys =>
    simp only [noWsPair, Bool.and_eq_true]
    exact ⟨h1 y rfl, h2⟩

theorem noWsPair_cons (x : Char) (l : List Char)
    (h1 : headOk l = true ∨ isJsWs x = false)
    (h2 : noWsPair l = true) : noWsPair (x :: l) = true := by
  apply noWsPair_cons_pair x l _ h2
  intro y hy
  rcases h1 with h1 | h1
  · cases l with
    | nil => simp at hy
    | cons z zs =>
      simp only [List.head?_cons, Option.some.injEq] at hy
      subst hy
      simp only [headOk, Bool.not_eq_true'] at h1
      simp [h1]
  · simp [h1]

theorem noWsPair_tail {x : Char} {l : List Char}
    (h : noWsPair (x :: l) = true) : noWsPair l = true := by
  cases l with
  | nil => simp [noWsPair]
  | cons y ys => simp only [noWsPair, Bool.and_eq_true] at h; exact h.2

theorem collapseWsAux_shape : ∀ (l : List Char) (b : Bool),
    (∀ c ∈ collapseWsAux b l, isJsWs c = true → c = ' ') ∧
    noWsPair (collapseWsAux b l) = true ∧
    (b = true → headOk (collapseWsAux b l) = true) := by
  intro l
  induction l with
  | nil =>
    intro b
    exact ⟨by simp [collapseWsAux], by simp [collapseWsAux, noWsPair],
      fun _ => by simp [collapseWsAux, headOk]⟩
  | cons c cs ih =>
    intro b
    by_cases hws : isJsWs c = true
    · cases b with
      | true =>
        have : collapseWsAux true (c :: cs) = collapseWsAux true cs := by
          simp [collapseWsAux, hws]
        rw [this]
        exact ih true
      | false =>
        have : collapseWsAux false (c :: cs) = ' ' :: collapseWsAux true cs := by
          simp [collapseWsAux, hws]
        rw [this]
        refine ⟨?_, ?_, ?_⟩
        · intro d hd hdws
          rcases List.mem_cons.mp hd with h1 | h1
          · exact h1
          · exact (ih true).1 d h1 hdws
        · exact noWsPair_cons _ _ (Or.inl ((ih true).2.2 rfl)) (ih true).2.1
        · intro h; exact absurd h (by simp)
    · have hws' : isJsWs c = false := by simpa using hws
      have : collapseWsAux b (c :: cs) = c :: collapseWsAux false cs := by
        simp [collapseWsAux, hws']
      rw [this]
      refine ⟨?_, ?_, ?_⟩
      · intro d hd hdws
        rcases List.mem_cons.mp hd with h1 | h1
        · subst h1; exact absurd hdws (by simp [hws'])
        · exact (ih false).1 d h1 hdws
      · exact noWsPair_cons _ _ (Or.inr hws') (ih false).2.1
      · intro _; simp [headOk, hws']

theorem noWsPair_dropWhile (p : Char → Bool) :
    ∀ l, noWsPair l = true → noWsPair (l.dropWhile p) = true := by
  intro l
  induction l with
  | nil => simp
  | cons c cs ih =>
    intro h
    rw [List.dropWhile_cons]
    split
    · exact ih (noWsPair_tail h)
    · exact h

theorem headOk_dropWhileWs :
    ∀ l : List Char, headOk (l.dropWhile (fun c => isJsWs c)) = true := by
  intro l
  induction l with
  | nil => simp [headOk]
  | cons c cs ih =>
    rw [List.dropWhile_cons]
    split
    · exact ih
    · next h => simp only [headOk]; simpa using h

theorem dropTrailingWs_cons (c : Char) (cs : List Char) :
    dropTrailingWs (c :: cs) =
      if (dropTrailingWs cs).isEmpty && isJsWs c then []
      else c :: dropTrailingWs cs := rfl

theorem dropTrailingWs_head : ∀ l : List Char,
    dropTrailingWs l = [] ∨ (dropTrailingWs l).head? = l.head? := by
  intro l
  cases l with
  | nil => exact Or.inl rfl
  | cons c cs =>
    rw [dropTrailingWs_cons]
    split
    · exact Or.inl rfl
    · exact Or.inr rfl

theorem noWsPair_dropTrailingWs :
    ∀ l, noWsPair l = true → noWsPair (dropTrailingWs l) = true := by
  intro l
  induction l with
  | nil => intro _; rfl
  | cons c cs ih =>
    intro h
    rw [dropTrailingWs_cons]
    split
    · rfl
    · apply noWsPair_cons_pair _ _ _ (ih (noWsPair_tail h))
      intro y hy
      rcases dropTrailingWs_head cs with he | he
      · rw [he] at hy; simp at hy
      · rw [he] at hy
        cases cs with
        | nil => simp at hy
        | cons d ds =>
          simp only [List.head?_cons, Option.some.injEq] at hy
          subst hy
          simp only [noWsPair, Bool.and_eq_true] at h
          exact h.1

theorem headOk_dropTrailingWs :
    ∀ l, headOk l = true → headOk (dropTrailingWs l) = true := by
  intro l
  cases l with
  | nil => intro _; rfl
  | cons c cs =>
    intro h
    rw [dropTrailingWs_cons]
    split
    · rfl
    · simp only [headOk] at h ⊢
      exact h

theorem lastOk_cons {x : Char} {l : List Char} (hne : l ≠ [])
    (h : lastOk l = true) : lastOk (x :: l) = true := by
  cases l with
  | nil => exact absurd rfl hne
  | cons y ys => simpa [lastOk] using h

theorem lastOk_dropTrailingWs : ∀ l, lastOk (dropTrailingWs l) = true := by
  intro l
  induction l with
  | nil => rfl
  | cons c cs ih =>
    rw [dropTrailingWs_cons]
    split
    · rfl
    · next hcond =>
      have hih := ih
      cases he : dropTrailingWs cs with
      | nil =>
        rw [he] at hcond
        simp only [List.isEmpty_nil, Bool.true_and, Bool.not_eq_true] at hcond
        simp [lastOk, hcond]
      | cons d ds =>
        rw [he] at hih
        exact lastOk_cons (by simp) hih

theorem headOk_jsTrim (l : List Char) : headOk (jsTrim l) = true :=
  headOk_dropTrailingWs _ (headOk_dropWhileWs l)

theorem dropWhileWs_fix (l : List Char) (h : headOk l = true) :
    l.dropWhile (fun c => isJsWs c) = l := by
  cases l with
  | nil => rfl
  | cons c cs =>
    simp only [headOk, Bool.not_eq_true'] at h
    simp [List.dropWhile_cons, h]

theorem dropTrailingWs_fix : ∀ l, lastOk l = true → dropTrailingWs l = l := by
  intro l
  induction l with
  | nil => intro _; rfl
  | cons c cs ih =>
    intro h
    cases cs with
    | nil =>
      simp only [lastOk, Bool.not_eq_true'] at h
      simp [dropTrailingWs, h]
    | cons d ds =>
      have h2 : lastOk (d :: ds) = true := by simpa [lastOk] using h
      rw [dropTrailingWs_cons, ih h2]
      simp

theorem jsTrim_fix (l : List Char) (hh : headOk l = true) (hl : lastOk l = true) :
    jsTrim l = l := by
  unfold jsTrim
  rw [dropWhileWs_fix l hh, dropTrailingWs_fix l hl]

theorem collapseWsAux_fix : ∀ (l : List Char) (b : Bool),
    noWsPair l = true → (∀ c ∈ l, isJsWs c = true → c = ' ') →
    (b = true → headOk l = true) → collapseWsAux b l = l := by
  intro l
  induction l with
  | nil => intro b _ _ _; rfl
  | cons c cs ih =>
    intro b hpair hsp hhead
    by_cases hws : isJsWs c = true
    · cases b with
      | true =>
        have := hhead rfl
        simp only [headOk, Bool.not_eq_true'] at this
        rw [this] at hws
        exact absurd hws (by simp)
      | false =>
        have hc : c = ' ' := hsp c (List.mem_cons_self _ _) hws
        have hcs : headOk cs = true := by
          cases cs with
          | nil => rfl
          | cons d ds =>
            simp only [noWsPair, Bool.and_eq_true, Bool.not_eq_true',
              Bool.and_eq_false_iff] at hpair
            rcases hpair.1 with h1 | h1
            · rw [h1] at hws; exact absurd hws (by simp)
            · simp [headOk, h1]
        have : collapseWsAux false (c :: cs) = ' ' :: collapseWsAux true cs := by
          simp [collapseWsAux, hws]
        rw [this, hc]
        rw [ih true (noWsPair_tail hpair)
          (fun d hd => hsp d (List.mem_cons_of_mem _ hd)) (fun _ => hcs)]
    · have hws' : isJsWs c = false := by simpa using hws
      have : collapseWsAux b (c :: cs) = c :: collapseWsAux false cs := by
        simp [collapseWsAux, hws']
      rw [this]
      rw [ih false (noWsPair_tail hpair)
        (fun d hd => hsp d (List.mem_cons_of_mem _ hd)) (by simp)]

theorem mk_data (s : String) : String.mk s.data = s := rfl

theorem jsToLower_keep {c : Char} (h : keepNormCh c = true) : jsToLower c = c := by
  have h2 : ¬(65 ≤ c.toNat ∧ c.toNat ≤ 90) := by
    unfold keepNormCh isDigitCh isJsWs at h
    simp only [Bool.or_eq_true, Bool.and_eq_true, decide_eq_true_eq] at h
    omega
  unfold jsToLower
  rw [if_neg h2]

theorem not_quote_of_keep {c : Char} (h : keepNormCh c = true) :
    isQuoteCh c = false := by
  unfold keepNormCh isDigitCh isJsWs at h
  unfold isQuoteCh
  simp only [Bool.or_eq_true, Bool.and_eq_true, decide_eq_true_eq] at h ⊢
  simp only [Bool.or_eq_false_iff, decide_eq_false_iff_not]
  omega

theorem not_word_of_ws {c : Char} (h : isJsWs c = true) : isWordCh c = false := by
  unfold isJsWs at h
  unfold isWordCh isDigitCh
  simp only [Bool.or_eq_true, decide_eq_true_eq] at h
  simp only [Bool.or_eq_false_iff, Bool.and_eq_false_iff,
    decide_eq_false_iff_not]
  omega

theorem not_quote_of_ws {c : Char} (h : isJsWs c = true) : isQuoteCh c = false := by
  unfold isJsWs at h
  unfold isQuoteCh
  simp only [Bool.or_eq_true, decide_eq_true_eq] at h
  simp only [Bool.or_eq_false_iff, decide_eq_false_iff_not]
  omega

theorem keep_of_ws {c : Char} (h : isJsWs c = true) : keepNormCh c = true := by
  unfold keepNormCh
  simp [h]

theorem jsToLower_ws {c : Char} (h : isJsWs c = true) : jsToLower c = c :=
  jsToLower_keep (keep_of_ws h)

theorem stripWordsAux_nil_of_no_word :
    ∀ l, (∀ c ∈ l, isWordCh c = false) → stripWordsAux [] l = l := by
  intro l
  induction l with
  | nil => intro _; rfl
  | cons c cs ih =>
    intro h
    have hc := h c (List.mem_cons_self _ _)
    simp only [stripWordsAux, hc, Bool.false_eq_true, if_false]
    rw [ih (fun d hd => h d (List.mem_cons_of_mem _ hd))]
    simp [flushWord]

theorem collapseWsAux_all_ws_true :
    ∀ l, (∀ c ∈ l, isJsWs c = true) → collapseWsAux true l = [] := by
  intro l
  induction l with
  | nil => intro _; rfl
  | cons c cs ih =>
    intro h
    simp only [collapseWsAux, h c (List.mem_cons_self _ _), if_true]
    exact ih (fun d hd => h d (List.mem_cons_of_mem _ hd))

theorem jsTrim_space : jsTrim [' '] = [] := rfl

theorem jsTrim_nil : jsTrim [] = [] := rfl

theorem normalise_ws_only (s : String) (h : ∀ c ∈ s.data, isJsWs c = true) :
    normalise s = "" := by
  unfold normalise
  rw [map_id_of _ _ (fun c hc => jsToLower_ws (h c hc))]
  rw [show List.filter (fun c => !(isQuoteCh c)) s.data = s.data from
    List.filter_eq_self.mpr (fun c hc => by simp [not_quote_of_ws (h c hc)])]
  unfold stripSuffixWords
  rw [stripWordsAux_nil_of_no_word _ (fun c hc => not_word_of_ws (h c hc))]
  rw [show List.filter (fun c => keepNormCh c) s.data = s.data from
    List.filter_eq_self.mpr (fun c hc => keep_of_ws (h c hc))]
  unfold collapseWs
  cases hs : s.data with
  | nil => rfl
  | cons c cs =>
    have hc : isJsWs c = true := h c (by rw [hs]; exact List.mem_cons_self _ _)
    simp only [collapseWsAux, hc, if_true]
    rw [collapseWsAux_all_ws_true cs
      (fun d hd => h d (by rw [hs]; exact List.mem_cons_of_mem _ hd))]
    rfl

theorem normalise_data (s : String) :
    (normalise s).data = jsTrim (collapseWs (List.filter (fun c => keepNormCh c)
      (stripSuffixWords (List.filter (fun c => !(isQuoteCh c))
        (s.data.map jsToLower))))) := rfl

theorem keep_of_mem_normalise {s : String} {c : Char}
    (h : c ∈ (normalise s).data) : keepNormCh c = true := by
  rw [normalise_data] at h
  have h2 := mem_jsTrim h
  rcases mem_collapseWsAux false _ h2 with h3 | h3
  · subst h3; rfl
  · exact List.of_mem_filter h3

theorem wssp_normalise {s : String} :
    ∀ c ∈ (normalise s).data, isJsWs c = true → c = ' ' := by
  intro c h
  rw [normalise_data] at h
  exact fun hws => ((collapseWsAux_shape _ false).1 c (mem_jsTrim h)) hws

theorem noWsPair_normalise (s : String) : noWsPair (normalise s).data = true := by
  rw [normalise_data]
  unfold jsTrim
  exact noWsPair_dropTrailingWs _
    (noWsPair_dropWhile _ _ (collapseWsAux_shape _ false).2.1)

theorem headOk_normalise (s : String) : headOk (normalise s).data = true := by
  rw [normalise_data]
  exact headOk_jsTrim _

theorem lastOk_normalise (s : String) : lastOk (normalise s).data = true := by
  rw [normalise_data]
  unfold jsTrim
  exact lastOk_dropTrailingWs _

theorem normalise_fix_aux (y : String)
    (hkeep : ∀ c ∈ y.data, keepNormCh c = true)
    (hwssp : ∀ c ∈ y.data, isJsWs c = true → c = ' ')
    (hpair : noWsPair y.data = true)
    (hhead : headOk y.data = true)
    (hlast : lastOk y.data = true)
    (hstrip : stripSuffixWords y.data = y.data) :
    normalise y = y := by
  unfold normalise
  rw [map_id_of _ _ (fun c hc => jsToLower_keep (hkeep c hc))]
  rw [show List.filter (fun c => !(isQuoteCh c)) y.data = y.data from
    List.filter_eq_self.mpr (fun c hc => by simp [not_quote_of_keep (hkeep c hc)])]
  rw [show stripSuffixWords y.data = y.data from hstrip]
  rw [show List.filter (fun c => keepNormCh c) y.data = y.data from
    List.filter_eq_self.mpr (fun c hc => hkeep c hc)]
  unfold collapseWs
  rw [collapseWsAux_fix _ false hpair hwssp (by simp)]
  rw [jsTrim_fix _ hhead hlast]

/-- C2, counterexample: `normalise` is not idempotent.  For the input
`"u.k"` the punctuation-stripping pass glues `u` and `k` into the new
legal-suffix word `uk`, which a second application then deletes:
`normalise "u.k" = "uk"` but `normalise "uk" = ""`. -/
theorem normalise_not_idempotent :
    normalise (normalise "u.k") ≠ normalise "u.k" := by decide

/-- C2 (amended): `normalise` is total for all string inputs, and empty or
whitespace-only input yields the empty string; `normalise (normalise x) =
normalise x` holds whenever the legal-suffix-word deletion pass leaves
`normalise x` unchanged, but fails for inputs such as `"u.k"` where
removing punctuation creates a fresh suffix word. -/
theorem normalise_whitespace_empty_and_conditional_idempotent (s : String) :
    ((∀ c ∈ s.data, isJsWs c = true) → normalise s = "") ∧
    (stripSuffixWords (normalise s).data = (normalise s).data →
      normalise (normalise s) = normalise s) := by
  refine ⟨normalise_ws_only s, fun hstrip => ?_⟩
  exact normalise_fix_aux (normalise s)
    (fun c hc => keep_of_mem_normalise hc)
    wssp_normalise
    (noWsPair_normalise s)
    (headOk_normalise s)
    (lastOk_normalise s)
    hstrip

/-- Witness for C2 (amended) at the concrete inputs `" \t "` (whitespace
only) and `"Acme & Co."` (a name whose normal form contains no suffix
word). -/
theorem normalise_whitespace_empty_and_conditional_idempotent_witness :
    normalise " \t " = "" ∧ normalise (normalise "Acme & Co.") = normalise "Acme & Co." := by
  constructor
  · exact (normalise_whitespace_empty_and_conditional_idempotent " \t ").1
      (by decide)
  · exact (normalise_whitespace_empty_and_conditional_idempotent "Acme & Co.").2
      (by decide)

/-! ## C4: the salary parser reference values -/

/-- C4: `parseSalary` follows the ordered currency rules at the specified
reference points: `"£45k"` → 45000; `"£40,000 - £50,000"` → 45000 (the
rounded midpoint of the first two GBP figures); `"$60k"` → 47400
(60000 × 0.79, rounded); `"Competitive"` → null; and null or empty input
→ null. -/
theorem parseSalary_reference_values :
    parseSalary (some "£45k") = some 45000 ∧
    parseSalary (some "£40,000 - £50,000") = some 45000 ∧
    parseSalary (some "$60k") = some 47400 ∧
    parseSalary (some "Competitive") = none ∧
    parseSalary none = none ∧
    parseSalary (some "") = none :=
  ⟨by decide, by decide, by decide, by decide, rfl, by decide⟩

/-! ## C3: the eligibility evaluator -/

/-- C3: `computeVisaConfidence` is a pure function of the sponsor-match
flag, the resolved occupation rate and the effective numeric salary.
Not sponsor-matched is `red` whatever the salary; sponsor-matched with no
numeric salary is `yellow`; sponsor-matched with salary at or above the
threshold — `max newEntrant 41700` when the occupation code resolves,
41700 otherwise — is `green`; and in particular a sponsor-matched job with
no occupation code and salary exactly 41700 is `green`. -/
theorem computeVisaConfidence_spec (job : ScorerJob) :
    (∀ job2 : ScorerJob,
      (job.verified_sponsor = 1 ↔ job2.verified_sponsor = 1) →
      socInfoOf job = socInfoOf job2 →
      effectiveSalary job = effectiveSalary job2 →
      computeVisaConfidence job = computeVisaConfidence job2) ∧
    (job.verified_sponsor ≠ 1 → computeVisaConfidence job = "red") ∧
    (job.verified_sponsor = 1 → effectiveSalary job = none →
      computeVisaConfidence job = "yellow") ∧
    (∀ n : Int, job.verified_sponsor = 1 → effectiveSalary job = some n →
      (match socInfoOf job with
       | some info => max info.newEntrant GENERAL_THRESHOLD
       | none => GENERAL_THRESHOLD) ≤ n →
      computeVisaConfidence job = "green") ∧
    computeVisaConfidence ⟨1, none, some 41700, none⟩ = "green" := by
  refine ⟨?_, ?_, ?_, ?_, by decide⟩
  · intro job2 h1 h2 h3
    unfold computeVisaConfidence
    rw [decide_eq_decide.mpr h1, h2, h3]
  · intro hv
    have hd : decide (job.verified_sponsor = 1) = false := by simp [hv]
    simp [computeVisaConfidence, hd]
  · intro hv hsal
    have hd : decide (job.verified_sponsor = 1) = true := by simp [hv]
    simp [computeVisaConfidence, hd, hsal]
  · intro n hv hsal hthr
    have hd : decide (job.verified_sponsor = 1) = true := by simp [hv]
    have hne : ¬(n = 0) := by
      rcases hsi : socInfoOf job with _ | info
      · rw [hsi] at hthr
        have hthr2 : GENERAL_THRESHOLD ≤ n := hthr
        simp only [GENERAL_THRESHOLD] at hthr2
        omega
      · rw [hsi] at hthr
        have hthr2 : max info.newEntrant GENERAL_THRESHOLD ≤ n := hthr
        have h41 : (GENERAL_THRESHOLD : Int) ≤ max info.newEntrant GENERAL_THRESHOLD :=
          le_max_right _ _
        have h42 : (41700 : Int) ≤ n := le_trans h41 hthr2
        omega
    simp only [computeVisaConfidence, hd, Bool.not_true, Bool.false_eq_true,
      if_false, hsal]
    rw [if_neg hne, if_pos hthr]

/-- Witness for C3 at concrete jobs: unverified with a high salary is
red; verified with no salary anywhere is yellow; verified at exactly the
general threshold with no occupation code is green. -/
theorem computeVisaConfidence_spec_witness :
    computeVisaConfidence ⟨0, none, some 99000, none⟩ = "red" ∧
    computeVisaConfidence ⟨1, none, none, none⟩ = "yellow" ∧
    computeVisaConfidence ⟨1, none, some 41700, none⟩ = "green" :=
  ⟨(computeVisaConfidence_spec ⟨0, none, some 99000, none⟩).2.1 (by decide),
   (computeVisaConfidence_spec ⟨1, none, none, none⟩).2.2.1 rfl (by decide),
   (computeVisaConfidence_spec ⟨1, none, some 41700, none⟩).2.2.2.1 41700 rfl
     (by decide) (by decide)⟩

/-! ## C5: the composite ranker -/

/-- The `visaMultiplier[c] || 0.3` weight takes one of exactly four
values. -/
theorem visaWeightCases (c : String) :
    jsOrJsNum (visaMultiplier.lookup c) ⟨3, 10⟩ = ⟨1, 1⟩ ∨
    jsOrJsNum (visaMultiplier.lookup c) ⟨3, 10⟩ = ⟨55, 100⟩ ∨
    jsOrJsNum (visaMultiplier.lookup c) ⟨3, 10⟩ = ⟨15, 100⟩ ∨
    jsOrJsNum (visaMultiplier.lookup c) ⟨3, 10⟩ = ⟨3, 10⟩ := by
  by_cases h1 : c = "green"
  · subst h1; left; decide
  by_cases h2 : c = "yellow"
  · subst h2; right; left; decide
  by_cases h3 : c = "red"
  · subst h3; right; right; left; decide
  by_cases h4 : c = "unknown"
  · subst h4; right; right; right; decide
  right; right; right
  have e1 : (c == "green") = false := beq_eq_false_iff_ne.mpr h1
  have e2 : (c == "yellow") = false := beq_eq_false_iff_ne.mpr h2
  have e3 : (c == "red") = false := beq_eq_false_iff_ne.mpr h3
  have e4 : (c == "unknown") = false := beq_eq_false_iff_ne.mpr h4
  simp [visaMultiplier, List.lookup, e1, e2, e3, e4, jsOrJsNum]

/-- C5: `computeSuccessProbability` is
`round(score*0.6 + visaWeight(confidence)*100*0.4)` with weights green 1.0,
yellow 0.55, red 0.15 and anything else 0.3; hence 100/green gives 100,
0/red gives 6, and every score in [0,100] gives a result in [0,100]
whatever the confidence string. -/
theorem computeSuccessProbability_spec :
    computeSuccessProbability 100 "green" = 100 ∧
    computeSuccessProbability 0 "red" = 6 ∧
    (∀ (s : Int) (c : String), 0 ≤ s → s ≤ 100 →
      0 ≤ computeSuccessProbability s c ∧
        computeSuccessProbability s c ≤ 100) := by
  refine ⟨by decide, by decide, ?_⟩
  intro s c hs0 hs100
  rcases visaWeightCases c with h | h | h | h <;>
    (simp only [computeSuccessProbability, h, JsNum.mul, JsNum.add,
      JsNum.ofInt, jsRound, JsNum.floor]
     rw [Int.fdiv_eq_ediv _ (by norm_num)]
     constructor <;> omega)

/-- Witness for C5 at score 55 and an unrecognised confidence string. -/
theorem computeSuccessProbability_spec_witness :
    0 ≤ computeSuccessProbability 55 "mystery" ∧
    computeSuccessProbability 55 "mystery" ≤ 100 :=
  computeSuccessProbability_spec.2.2 55 "mystery" (by decide) (by decide)

/-! ## C6: the entity matcher -/

/-- C6, counterexample: `checkSponsor` has no 3-character floor — the
2-character normalised name `"ab"` exact-matches a registry key — and,
through the alias table, the 4-character normalised name `"bain"`
fuzzy-matches a long registry key. -/
theorem checkSponsor_short_names_can_match :
    (checkSponsor (some [("ab", entryAb)]) "AB").verified = true ∧
    (normalise "AB").length = 2 ∧
    (checkSponsor (some [("bain & company partners", entryBain)])
        "Bain").fuzzyMatch = true ∧
    (normalise "Bain").length = 4 := by
  refine ⟨by decide, by decide, ?_, by decide⟩
  decide

/-- Definitional shape of `checkSponsor` on a loaded registry, with the
`let`s resolved through `aliasKey`. -/
theorem checkSponsor_some (reg : List (String × SponsorEntry))
    (name : String) :
    checkSponsor (some reg) name =
      if name = "" then noSponsorMatch
      else if normalise name = "" then noSponsorMatch
      else if GENERIC_COMPANY_NAMES.contains (normalise name) then
        noSponsorMatch
      else
        match reg.find? (fun e => e.1 == aliasKey name) with
        | some e => sponsorFound e false
        | none =>
          if 5 ≤ (aliasKey name).length then
            match reg.find? (fun e => fuzzyHit (aliasKey name) e.1) with
            | some e => sponsorFound e true
            | none => noSponsorMatch
          else noSponsorMatch := rfl

/-- C6 (amended): `checkSponsor` rejects immediately when the normalised
company name is empty or is one of the fixed placeholder names (there is
no 3-character minimum); an exact normalised-key match always takes
precedence over fuzzy scanning; a lookup key still shorter than 5
characters after alias translation never fuzzy-matches; and
`checkSponsor "Unknown"` returns not matched regardless of the registry
contents. -/
theorem checkSponsor_guards_and_precedence
    (reg : List (String × SponsorEntry)) (name : String) :
    (normalise name = "" → checkSponsor (some reg) name = noSponsorMatch) ∧
    (GENERIC_COMPANY_NAMES.contains (normalise name) = true →
      checkSponsor (some reg) name = noSponsorMatch) ∧
    (∀ e, normalise name ≠ "" →
      GENERIC_COMPANY_NAMES.contains (normalise name) = false →
      reg.find? (fun p => p.1 == aliasKey name) = some e →
      checkSponsor (some reg) name = sponsorFound e false) ∧
    ((aliasKey name).length < 5 →
      (checkSponsor (some reg) name).fuzzyMatch = false) ∧
    (∀ sreg, checkSponsor sreg "Unknown" = noSponsorMatch) := by
  have hemp : normalise "" = "" := by decide
  refine ⟨?_, ?_, ?_, ?_, ?_⟩
  · intro hk
    rw [checkSponsor_some]
    by_cases hN : name = ""
    · rw [if_pos hN]
    · rw [if_neg hN, if_pos hk]
  · intro hgen
    rw [checkSponsor_some]
    by_cases hN : name = ""
    · rw [if_pos hN]
    · rw [if_neg hN]
      by_cases hk : normalise name = ""
      · rw [if_pos hk]
      · rw [if_neg hk, if_pos hgen]
  · intro e hk hgen hfind
    have hN : ¬(name = "") := fun h => hk (h ▸ hemp)
    rw [checkSponsor_some, if_neg hN, if_neg hk,
      if_neg (by rw [hgen]; decide), hfind]
  · intro hlen
    rw [checkSponsor_some]
    by_cases hN : name = ""
    · rw [if_pos hN]; rfl
    · rw [if_neg hN]
      by_cases hk : normalise name = ""
      · rw [if_pos hk]; rfl
      · rw [if_neg hk]
        by_cases hgen : GENERIC_COMPANY_NAMES.contains (normalise name) = true
        · rw [if_pos hgen]; rfl
        · rw [if_neg hgen]
          cases hfe : reg.find? (fun p => p.1 == aliasKey name) with
          | some e => rfl
          | none =>
            have h5 : ¬(5 ≤ (aliasKey name).length) := by omega
            simp only [if_neg h5]
            rfl
  · intro sreg
    cases sreg with
    | none => rfl
    | some r =>
      rw [checkSponsor_some, if_neg (by decide),
        show normalise "Unknown" = "unknown" from by decide,
        if_neg (by decide), if_pos (by decide)]

/-- Witness for C6 (amended) on a one-entry registry. -/
theorem checkSponsor_guards_and_precedence_witness :
    checkSponsor (some sponsorRegEx) "  .,;  " = noSponsorMatch ∧
    checkSponsor (some sponsorRegEx) "Confidential" = noSponsorMatch ∧
    checkSponsor (some sponsorRegEx) "Acme Widgets Ltd" =
      sponsorFound ("acme widgets",
        ⟨"Acme Widgets Ltd", "London", "A", ["Skilled Worker"]⟩) false ∧
    (checkSponsor (some sponsorRegEx) "Acme").fuzzyMatch = false ∧
    checkSponsor (some sponsorRegEx) "Unknown" = noSponsorMatch := by
  refine ⟨?_, ?_, ?_, ?_, ?_⟩
  · exact (checkSponsor_guards_and_precedence sponsorRegEx "  .,;  ").1
      (by decide)
  · exact (checkSponsor_guards_and_precedence sponsorRegEx "Confidential").2.1
      (by decide)
  · exact (checkSponsor_guards_and_precedence sponsorRegEx
      "Acme Widgets Ltd").2.2.1 ("acme widgets",
        ⟨"Acme Widgets Ltd", "London", "A", ["Skilled Worker"]⟩)
      (by decide) (by decide) (by decide)
  · exact (checkSponsor_guards_and_precedence sponsorRegEx "Acme").2.2.2.1
      (by decide)
  · exact (checkSponsor_guards_and_precedence sponsorRegEx "x").2.2.2.2
      (some sponsorRegEx)

/-! ## C10: sponsor verification forces the visa flag -/

/-- C10: after `enrichJob`, `verified_sponsor = 1` implies
`visa_sponsorship = 1`: a sponsor-register match forces the flag on even
when the source handed the posting in with `visa_sponsorship = 0`. -/
theorem enrichJob_verified_forces_visa
    (sponsorReg : Option (List (String × SponsorEntry)))
    (rawJob : IncomingJob)
    (h : (enrichJob sponsorReg rawJob).verified_sponsor = some 1) :
    (enrichJob sponsorReg rawJob).visa_sponsorship = 1 := by
  unfold enrichJob at h ⊢
  cases hv : (checkSponsor sponsorReg rawJob.company).verified with
  | true => simp [hv]
  | false => simp [hv] at h

/-- Witness for C10: a source job with `visa_sponsorship = 0` whose
company is on the register comes out of `enrichJob` with both flags 1. -/
theorem enrichJob_verified_forces_visa_witness :
    (enrichJob (some sponsorRegEx) incUnflagged).visa_sponsorship = 1 :=
  enrichJob_verified_forces_visa (some sponsorRegEx) incUnflagged (by decide)

/-! ## C8: the quality gate -/

/-- C8: every record the ingestion pass hands to storage scores at least
`MIN_SCORE = 3`, and a scored posting below the threshold is never
upserted even though it passed the keyword pre-filter. -/
theorem qualityGate_min_score (scoredJobs : List IncomingJob) :
    (∀ j ∈ qualityJobsOf scoredJobs,
      MIN_SCORE ≤ jsOrNumD j.match_score 0) ∧
    (∀ j ∈ scoredJobs, jsOrNumD j.match_score 0 < MIN_SCORE →
      j ∉ qualityJobsOf scoredJobs) := by
  constructor
  · intro j hj
    have h := List.of_mem_filter hj
    simpa using h
  · intro j _ hlt hmem
    have h := List.of_mem_filter hmem
    simp only [decide_eq_true_eq] at h
    omega

/-- Witness for C8: a 77-point posting passes the gate, a 0-point one is
dropped. -/
theorem qualityGate_min_score_witness :
    MIN_SCORE ≤ jsOrNumD incReingest.match_score 0 ∧
    incQualityLo ∉ qualityJobsOf [incReingest, incQualityLo] :=
  ⟨(qualityGate_min_score [incReingest, incQualityLo]).1 incReingest
      (by decide),
   (qualityGate_min_score [incReingest, incQualityLo]).2 incQualityLo
      (by decide) (by decide)⟩

/-! ## C9: the status enum guard -/

/-- C9: `updateStatus` with a status outside the fixed enum is rejected
synchronously with the descriptive error naming the allowed values and
no write happens; a valid status is written verbatim (never coerced) to
the addressed row, all other rows are untouched, and the written value
is echoed back. -/
theorem updateStatus_enum_guard (table : List JobRow)
    (jobId status : String) :
    (status ∉ VALID_STATUSES →
      updateStatus table jobId status = Except.error
        ("Invalid status: " ++ status ++ ". Must be one of: " ++
          "new, to_apply, applied, interviewing, offer, rejected, archived")) ∧
    (status ∈ VALID_STATUSES →
      ∃ table2, updateStatus table jobId status =
          Except.ok (table2,
            (table2.find? (fun r => r.id == jobId)).map (fun r => r.status)) ∧
        (∀ r ∈ table2, r.id = jobId → r.status = status) ∧
        (∀ r ∈ table2, r.id ≠ jobId → r ∈ table) ∧
        table2.length = table.length) := by
  constructor
  · intro hbad
    have hc : VALID_STATUSES.contains status = false := by
      simpa using hbad
    unfold updateStatus
    rw [hc, if_pos (show (!false) = true from rfl),
      show String.intercalate ", " VALID_STATUSES =
        "new, to_apply, applied, interviewing, offer, rejected, archived"
        from by decide]
  · intro hgood
    have hc : VALID_STATUSES.contains status = true := by
      simpa using hgood
    refine ⟨table.map (fun r =>
      if r.id == jobId then { r with status := status } else r), ?_, ?_, ?_, ?_⟩
    · unfold updateStatus
      rw [hc, if_neg (show ¬((!true) = true) from by decide)]
    · intro r hr hridv
      rcases List.mem_map.mp hr with ⟨r0, _, hmap⟩
      by_cases hid : r0.id == jobId
      · rw [if_pos hid] at hmap
        rw [← hmap]
      · rw [if_neg hid] at hmap
        subst hmap
        exact absurd (beq_iff_eq.mpr hridv) hid
    · intro r hr hne
      rcases List.mem_map.mp hr with ⟨r0, hr0, hmap⟩
      by_cases hid : r0.id == jobId
      · rw [if_pos hid] at hmap
        exfalso
        apply hne
        rw [← hmap]
        exact beq_iff_eq.mp hid
      · rw [if_neg hid] at hmap
        subst hmap
        exact hr0
    · exact List.length_map _ _

/-- Witness for C9: an invalid write is rejected with the full message;
a valid write lands verbatim. -/
theorem updateStatus_enum_guard_witness :
    updateStatus [rowEx] "j1" "bogus" = Except.error
      ("Invalid status: " ++ "bogus" ++ ". Must be one of: " ++
        "new, to_apply, applied, interviewing, offer, rejected, archived") ∧
    (∃ table2, updateStatus [rowEx] "j1" "applied" =
        Except.ok (table2,
          (table2.find? (fun r => r.id == "j1")).map (fun r => r.status)) ∧
      (∀ r ∈ table2, r.id = "j1" → r.status = "applied") ∧
      (∀ r ∈ table2, r.id ≠ "j1" → r ∈ [rowEx]) ∧
      table2.length = ([rowEx] : List JobRow).length) :=
  ⟨(updateStatus_enum_guard [rowEx] "j1" "bogus").1 (by decide),
   (updateStatus_enum_guard [rowEx] "j1" "applied").2 (by decide)⟩

/-! ## C7: the heuristic scorer -/

theorem foldl_role_nonneg (ts : List RoleTerm) (titleLower : String) :
    ∀ acc : Int, 0 ≤ acc →
      0 ≤ ts.foldl (fun acc t =>
        if reTest t.pattern titleLower && decide (acc < t.weight) then t.weight
        else acc) acc := by
  induction ts with
  | nil => intro acc h; simpa using h
  | cons a as ih =>
    intro acc h
    simp only [List.foldl_cons]
    by_cases hc : (reTest a.pattern titleLower && decide (acc < a.weight)) = true
    · rw [if_pos hc]
      apply ih
      simp only [Bool.and_eq_true, decide_eq_true_eq] at hc
      omega
    · rw [if_neg hc]
      exact ih acc h

theorem rolePtsOf_nonneg (titleLower : String) : 0 ≤ rolePtsOf titleLower := by
  unfold rolePtsOf
  exact foldl_role_nonneg ROLE_PRIORITY_TERMS titleLower 0 le_rfl

set_option maxHeartbeats 1600000 in
theorem scoreFromFeatures_bounds (rolePts : Int) (esgHitCount : Nat)
    (ct cm vs vl : Bool) (vh : Nat) (lo uk rm sp : Bool)
    (hr : 0 ≤ rolePts) :
    0 ≤ scoreFromFeatures rolePts esgHitCount ct cm vs vl vh lo uk rm sp ∧
      scoreFromFeatures rolePts esgHitCount ct cm vs vl vh lo uk rm sp ≤
        100 := by
  simp only [scoreFromFeatures, esgDepthPoints]
  refine ⟨le_min ?_ (by norm_num), min_le_right _ _⟩
  split_ifs <;> omega

set_option maxHeartbeats 3200000 in
theorem scoreFromFeatures_mono_esg (rolePts : Int) (h1 h2 : Nat)
    (ct cm vs vl : Bool) (vh : Nat) (lo uk rm sp : Bool)
    (hr : 0 ≤ rolePts) (h12 : h1 ≤ h2) :
    scoreFromFeatures rolePts h1 ct cm vs vl vh lo uk rm sp ≤
      scoreFromFeatures rolePts h2 ct cm vs vl vh lo uk rm sp := by
  simp only [scoreFromFeatures, esgDepthPoints]
  by_cases hx1 : (decide (0 < h1) || decide (10 ≤ rolePts)) = true
  · have hx2 : (decide (0 < h2) || decide (10 ≤ rolePts)) = true := by
      simp only [Bool.or_eq_true, decide_eq_true_eq] at hx1 ⊢
      rcases hx1 with h | h
      · exact Or.inl (lt_of_lt_of_le h h12)
      · exact Or.inr h
    rw [hx1, hx2]
    simp only [Bool.true_and, Bool.not_true, Bool.false_and,
      Bool.false_eq_true, if_false]
    split_ifs <;> omega
  · have hx1f : (decide (0 < h1) || decide (10 ≤ rolePts)) = false := by
      simpa using hx1
    have hh1 : h1 = 0 := by
      simp only [Bool.or_eq_false_iff, decide_eq_false_iff_not] at hx1f
      omega
    by_cases hx2 : (decide (0 < h2) || decide (10 ≤ rolePts)) = true
    · rw [hx1f, hx2]
      simp only [Bool.true_and, Bool.not_true, Bool.false_and,
        Bool.not_false, Bool.false_eq_true, if_false, hh1]
      split_ifs <;> omega
    · have hx2f : (decide (0 < h2) || decide (10 ≤ rolePts)) = false := by
        simpa using hx2
      have hh2 : h2 = 0 := by
        simp only [Bool.or_eq_false_iff, decide_eq_false_iff_not] at hx2f
        omega
      rw [hx1f, hx2f, hh1, hh2]

/-- C7: for every job, `computeHeuristicScore` lands in [0,100] (hard cap
at 100 and floor at 0); the additive point model is monotonically
non-decreasing in the number of distinct ESG depth-term hits, all other
extracted features held fixed (`computeHeuristicScore` is by definition
`scoreFromFeatures` applied to the features extracted from the job); and
the depth tier's contribution is capped at 25 points. -/
theorem heuristicScore_bounds_and_depth_mono :
    (∀ job : HeuristicJob,
      0 ≤ computeHeuristicScore job ∧ computeHeuristicScore job ≤ 100) ∧
    (∀ (rolePts : Int) (h1 h2 : Nat) (ct cm vs vl : Bool) (vh : Nat)
        (lo uk rm sp : Bool), 0 ≤ rolePts → h1 ≤ h2 →
      scoreFromFeatures rolePts h1 ct cm vs vl vh lo uk rm sp ≤
        scoreFromFeatures rolePts h2 ct cm vs vl vh lo uk rm sp) ∧
    (∀ n : Nat, esgDepthPoints n ≤ 25) := by
  refine ⟨?_, ?_, ?_⟩
  · intro job
    unfold computeHeuristicScore
    exact scoreFromFeatures_bounds _ _ _ _ _ _ _ _ _ _ _
      (rolePtsOf_nonneg _)
  · intro rolePts h1 h2 ct cm vs vl vh lo uk rm sp hr h12
    exact scoreFromFeatures_mono_esg rolePts h1 h2 ct cm vs vl vh lo uk rm
      sp hr h12
  · intro n
    unfold esgDepthPoints
    omega

/-- Witness for C7: two more depth hits (2 → 5) cannot lower the score,
at a concrete feature vector. -/
theorem heuristicScore_bounds_and_depth_mono_witness :
    scoreFromFeatures 15 2 true false true false 1 true false false true ≤
      scoreFromFeatures 15 5 true false true false 1 true false false true :=
  heuristicScore_bounds_and_depth_mono.2.1 15 2 5 true false true false 1
    true false false true (by decide) (by decide)

/-! ## C1: re-ingestion and user-owned fields (code bug) -/

/-- C1 (code bug, evaluated at the failing input): re-ingesting id
`"j1"` after the user set `saved = 1`, `status = "applied"` and
`notes = "mine"` refreshes the derived fields (`match_score` 55 → 77,
`visa_confidence` yellow → green) and preserves `status` and `notes`,
but resets the user's `saved` flag to the column default 0, because the
`INSERT OR REPLACE` column list omits `saved`; on first insert the
incoming values (with defaults) are written. -/
theorem upsert_reingest_resets_saved :
    rowUserEdited.saved = 1 ∧
    ((upsertJobs [rowUserEdited] [incReingest]).find?
        (fun r => r.id == "j1")).map
        (fun r => (r.saved, r.status, r.notes, r.match_score,
          r.visa_confidence)) =
      some (0, "applied", some "mine", 77, "green") ∧
    ((upsertJobs [] [incReingest]).find? (fun r => r.id == "j1")).map
        (fun r => (r.saved, r.status, r.notes, r.match_score,
          r.visa_confidence)) =
      some (0, "new", none, 77, "green") := by
  refine ⟨rfl, by decide, by decide⟩

end ESGJobs
